import Mathlib

/-!
Shallow embedding of the UPI dashboard scraper pipeline.

Source files: scraper.py (table extraction) and update_data.py (history
merge).  HTML details are abstracted into the HTable structure: a table is
its th texts, its tr rows (each the list of td texts), and its full
get_text output.  Numeric cells are modelled as exact rationals; the
Python float() subset modelled here covers optional sign, digits and one
decimal point after comma removal (no exponent, inf, nan or underscore
forms — no scraped cell nor any claim uses those, and no claim depends on
IEEE rounding).
-/

/-- Characters discarded by the Python str.strip default (ASCII whitespace
subset; the exotic unicode spaces never occur in the modelled inputs). -/
def isPySpace (c : Char) : Bool :=
  c = ' ' || c = '\t' || c = '\n' || c = '\r' || c = '\x0b' || c = '\x0c'

/-- Python str.strip: drop leading and trailing whitespace. -/
def pyStrip (s : String) : String :=
  String.mk (((s.toList.dropWhile isPySpace).reverse.dropWhile isPySpace).reverse)

/-- Python s.replace with empty replacement removes every occurrence of the
one-character pattern. -/
def removeAllChar (c : Char) (s : String) : String :=
  String.mk (s.toList.filter (fun d => d != c))

/-- Models cells[i].replace with a comma pattern, as done before float(). -/
def removeCommas (s : String) : String := removeAllChar ',' s

/-- Models cells[1].replace with a hash pattern in extract_apps_data. -/
def removeHash (s : String) : String := removeAllChar '#' s

/-- The digits of a numeral read as a natural number. -/
def digitsToNat (l : List Char) : Nat :=
  l.foldl (fun a c => 10 * a + (c.toNat - 48)) 0

/-- Exact prefix test on character lists. -/
def isPrefixL : List Char → List Char → Bool
  | [], _ => true
  | _ :: _, [] => false
  | a :: as, b :: bs => a = b && isPrefixL as bs

/-- Substring occurrence test on character lists. -/
def containsSub (needle : List Char) : List Char → Bool
  | [] => needle.isEmpty
  | c :: cs => isPrefixL needle (c :: cs) || containsSub needle cs

/-- Python substring membership: needle in hay. -/
def strContains (hay needle : String) : Bool :=
  containsSub needle.toList hay.toList

/-- Splits a character list at every occurrence of the separator. -/
def splitOnChar (c : Char) : List Char → List (List Char)
  | [] => [[]]
  | x :: xs =>
    match splitOnChar c xs with
    | [] => [[]]
    | g :: gs => if x = c then [] :: g :: gs else (x :: g) :: gs

/-- A single-quote character, as used by the Python repr of a string. -/
def squoteS : String := String.mk [Char.ofNat 39]

/-- Python str(headers) for a list of plain strings: the repr encloses each
element in single quotes and joins with a comma and a space inside square
brackets.  Headers containing quote or escape characters (which would make
repr switch delimiters) do not occur in the modelled pages. -/
def pyReprStrList (hs : List String) : String :=
  String.mk (('[' :: List.intercalate [',', ' ']
    (hs.map (fun h => (squoteS ++ h ++ squoteS).toList))) ++ [']'])

/-- Python float() on a comma-stripped cell: optional surrounding
whitespace, optional sign, then digits with at most one decimal point and
at least one digit.  The value is kept as an exact rational. -/
def pyFloat (s : String) : Option ℚ :=
  let l := (pyStrip s).toList
  let signAndRest : Bool × List Char :=
    match l with
    | c :: rest => if c = '-' then (true, rest) else if c = '+' then (false, rest) else (false, l)
    | [] => (false, [])
  let neg := signAndRest.1
  match splitOnChar '.' signAndRest.2 with
  | [ip] =>
    if ip ≠ [] ∧ ip.all Char.isDigit then
      let v : ℚ := (digitsToNat ip : ℚ)
      some (if neg then -v else v)
    else none
  | [ip, fp] =>
    if ip ++ fp ≠ [] ∧ ip.all Char.isDigit ∧ fp.all Char.isDigit then
      let v : ℚ := (digitsToNat ip : ℚ) + (digitsToNat fp : ℚ) / (10 : ℚ) ^ fp.length
      some (if neg then -v else v)
    else none
  | _ => none

/-- One table element of the fetched page: the texts of its th elements,
its tr rows (each row the texts of its td elements, document order), and
the full textual content returned by get_text. -/
structure HTable where
  ths : List String
  trs : List (List String)
  text : String
deriving DecidableEq

/-- The for-table loop with a break after the first predicate match, shared
by every extractor: return the first matching table or none. -/
def locateTable (p : HTable → Bool) : List HTable → Option HTable
  | [] => none
  | t :: ts => if p t then some t else locateTable p ts

/-- The for-row loop with a return inside, as in extract_p2p_p2m_data:
first row mapped to some wins. -/
def findFirst? {α β : Type} (f : α → Option β) : List α → Option β
  | [] => none
  | x :: xs =>
    match f x with
    | some b => some b
    | none => findFirst? f xs

/-- One record of the topApps dataset: {name, volume, value}. -/
structure AppRecord where
  name : String
  volume : ℚ
  value : ℚ
deriving DecidableEq

/-- One record of the topBanks dataset: {name, volume}. -/
structure BankRecord where
  name : String
  volume : ℚ
deriving DecidableEq

/-- One record of the merchantCategories dataset: {category, volume, value}. -/
structure MerchantRecord where
  category : String
  volume : ℚ
  value : ℚ
deriving DecidableEq

/-- One record of the stateData dataset: {state, volume, value}. -/
structure StateRecord where
  state : String
  volume : ℚ
  value : ℚ
deriving DecidableEq

/-- The single monthly-totals record of extract_p2p_p2m_data. -/
structure MonthlyTotals where
  month : String
  totalVolume : ℚ
  totalValue : ℚ
  p2pVolume : ℚ
  p2pValue : ℚ
  p2mVolume : ℚ
  p2mValue : ℚ
deriving DecidableEq

/-- A JSON-like value stored under one key of the parsed_data dict. -/
inductive DataValue : Type where
  | apps : List AppRecord → DataValue
  | banks : List BankRecord → DataValue
  | merchants : List MerchantRecord → DataValue
  | states : List StateRecord → DataValue
  | str : String → DataValue
  | num : ℚ → DataValue
deriving DecidableEq

/-- A Python dict of DataValue entries, as an association list in insertion
order with distinct keys. -/
abbrev Dict : Type := List (String × DataValue)

/-- Python dict lookup on an association list: first matching key wins
(keys are distinct in every dict the pipeline builds). -/
def dictGet {β : Type} (h : List (String × β)) (m : String) : Option β :=
  match h with
  | [] => none
  | p :: rest => if p.1 = m then some p.2 else dictGet rest m

/-- Lookup specialised to snapshot dicts. -/
def dictLookup (d : Dict) (m : String) : Option DataValue := dictGet d m

/-- Identifying predicate of the UPI Apps table (scraper.py line 72):
the stripped th texts contain the exact header label. -/
def appsTablePred (t : HTable) : Bool :=
  (t.ths.map pyStrip).contains "Application Name"

/-- Identifying predicate of the Remitter Banks table (line 107): substring
match against the Python str() of the stripped header list. -/
def banksTablePred (t : HTable) : Bool :=
  strContains (pyReprStrList (t.ths.map pyStrip)) "UPI Remitter Members"

/-- Identifying predicate of the Merchant Category table (line 144):
substring match against the full table text. -/
def merchantTablePred (t : HTable) : Bool :=
  strContains t.text "Merchant Category-wise"

/-- Identifying predicate of the State-wise table (line 179). -/
def stateTablePred (t : HTable) : Bool :=
  strContains t.text "State-wise UPI"

/-- Identifying predicate of the P2P and P2M table (line 213). -/
def p2pTablePred (t : HTable) : Bool :=
  strContains t.text "UPI P2P and P2M Transactions"

/-- Lines 76-88: one row of the apps table.  Cells are the stripped td
texts; rows with fewer than 3 cells are skipped, the name is cell 1 with
hash marks removed, volume and value are the last two cells; a coercion
failure on either numeric cell discards the whole row. -/
def appRow? (row : List String) : Option AppRecord :=
  let cells := row.map pyStrip
  if 3 ≤ cells.length then
    let appName := pyStrip (removeHash (cells.getD 1 ""))
    match pyFloat (removeCommas (cells.getD (cells.length - 2) "")) with
    | none => none
    | some volume =>
      match pyFloat (removeCommas (cells.getD (cells.length - 1) "")) with
      | none => none
      | some value => some ⟨appName, volume, value⟩
  else none

/-- Lines 73-89: skip the first tr, iterate the next 10 rows, keep the
rows that extract. -/
def appsRecords (t : HTable) : List AppRecord :=
  ((t.trs.drop 1).take 10).filterMap appRow?

/-- The topApps value of a whole document: records of the first matching
table, empty when no table matches. -/
def topAppsOf (doc : List HTable) : List AppRecord :=
  match locateTable appsTablePred doc with
  | some t => appsRecords t
  | none => []

/-- Lines 61-95: extract_apps_data always returns the single key topApps
(the broad except branch, which also returns that key, is unreachable in
the pure model). -/
def extract_apps_data (doc : List HTable) : Dict :=
  [("topApps", DataValue.apps (topAppsOf doc))]

/-- Lines 111-121: one row of the remitter banks table: name is cell 1,
volume is cell 2. -/
def bankRow? (row : List String) : Option BankRecord :=
  let cells := row.map pyStrip
  if 3 ≤ cells.length then
    let bankName := pyStrip (cells.getD 1 "")
    match pyFloat (removeCommas (cells.getD 2 "")) with
    | none => none
    | some volume => some ⟨bankName, volume⟩
  else none

/-- Lines 108-122: skip the first tr, iterate the next 10 rows. -/
def bankRecords (t : HTable) : List BankRecord :=
  ((t.trs.drop 1).take 10).filterMap bankRow?

/-- The topBanks value of a whole document. -/
def topBanksOf (doc : List HTable) : List BankRecord :=
  match locateTable banksTablePred doc with
  | some t => bankRecords t
  | none => []

/-- Lines 97-128: extract_remitter_data always returns the single key
topBanks. -/
def extract_remitter_data (doc : List HTable) : Dict :=
  [("topBanks", DataValue.banks (topBanksOf doc))]

/-- Lines 130-133: extract_beneficiary_data is a stub returning the empty
dict. -/
def extract_beneficiary_data (_doc : List HTable) : Dict := []

/-- Lines 148-161: one row of the merchant table: category is cell 2,
volume cell 3, and value cell 4 when present, else the constant 0. -/
def merchRow? (row : List String) : Option MerchantRecord :=
  let cells := row.map pyStrip
  if 4 ≤ cells.length then
    let category := pyStrip (cells.getD 2 "")
    match pyFloat (removeCommas (cells.getD 3 "")) with
    | none => none
    | some volume =>
      if 4 < cells.length then
        match pyFloat (removeCommas (cells.getD 4 "")) with
        | none => none
        | some value => some ⟨category, volume, value⟩
      else some ⟨category, volume, 0⟩
  else none

/-- Lines 145-164: iterate every tr (no header skip), keep the rows that
extract, then cap the collected list at 10. -/
def merchantRecords (t : HTable) : List MerchantRecord :=
  (t.trs.filterMap merchRow?).take 10

/-- The merchantCategories value of a whole document. -/
def merchantCategoriesOf (doc : List HTable) : List MerchantRecord :=
  match locateTable merchantTablePred doc with
  | some t => merchantRecords t
  | none => []

/-- Lines 135-168: extract_merchant_data always returns the single key
merchantCategories. -/
def extract_merchant_data (doc : List HTable) : Dict :=
  [("merchantCategories", DataValue.merchants (merchantCategoriesOf doc))]

/-- Lines 183-196: one row of the state table: state is cell 1, volume
cell 2, value cell 4; rows with fewer than 5 cells are skipped. -/
def stateRow? (row : List String) : Option StateRecord :=
  let cells := row.map pyStrip
  if 5 ≤ cells.length then
    let state := pyStrip (cells.getD 1 "")
    match pyFloat (removeCommas (cells.getD 2 "")) with
    | none => none
    | some volume =>
      match pyFloat (removeCommas (cells.getD 4 "")) with
      | none => none
      | some value => some ⟨state, volume, value⟩
  else none

/-- Lines 180-197: skip the first tr, iterate the next 10 rows. -/
def stateRecords (t : HTable) : List StateRecord :=
  ((t.trs.drop 1).take 10).filterMap stateRow?

/-- The stateData value of a whole document. -/
def stateDataOf (doc : List HTable) : List StateRecord :=
  match locateTable stateTablePred doc with
  | some t => stateRecords t
  | none => []

/-- Lines 170-203: extract_state_data always returns the single key
stateData. -/
def extract_state_data (doc : List HTable) : Dict :=
  [("stateData", DataValue.states (stateDataOf doc))]

/-- Lines 217-238: one row of the P2P and P2M table.  The structural guard
only requires 6 cells (line 218), yet the p2m value is read from cell
index 6 (line 226): on a row with exactly 6 cells that read raises
IndexError, caught by the inner except, so the row yields nothing.  The
month cell never fails; a coercion failure on any numeric cell also
discards the row. -/
def p2pRow? (row : List String) : Option MonthlyTotals :=
  let cells := row.map pyStrip
  if 6 ≤ cells.length then
    match pyFloat (removeCommas (cells.getD 1 "")) with
    | none => none
    | some totalVolume =>
      match pyFloat (removeCommas (cells.getD 2 "")) with
      | none => none
      | some totalValue =>
        match pyFloat (removeCommas (cells.getD 3 "")) with
        | none => none
        | some p2pVolume =>
          match pyFloat (removeCommas (cells.getD 4 "")) with
          | none => none
          | some p2pValue =>
            match pyFloat (removeCommas (cells.getD 5 "")) with
            | none => none
            | some p2mVolume =>
              match cells[6]? with
              | none => none
              | some c6 =>
                match pyFloat (removeCommas c6) with
                | none => none
                | some p2mValue =>
                  some ⟨pyStrip (cells.getD 0 ""), totalVolume, totalValue,
                        p2pVolume, p2pValue, p2mVolume, p2mValue⟩
  else none

/-- The seven top-level monthly-totals entries built from one accepted
row (lines 228-236). -/
def monthlyDict (m : MonthlyTotals) : Dict :=
  [("month", DataValue.str m.month),
   ("totalVolume", DataValue.num m.totalVolume),
   ("totalValue", DataValue.num m.totalValue),
   ("p2pVolume", DataValue.num m.p2pVolume),
   ("p2pValue", DataValue.num m.p2pValue),
   ("p2mVolume", DataValue.num m.p2mVolume),
   ("p2mValue", DataValue.num m.p2mValue)]

/-- Lines 205-245: extract_p2p_p2m_data returns the record of the first
row that extracts from the first matching table, and the empty dict when
no table matches or no row extracts. -/
def extract_p2p_p2m_data (doc : List HTable) : Dict :=
  match locateTable p2pTablePred doc with
  | none => []
  | some t =>
    match findFirst? p2pRow? t.trs with
    | some m => monthlyDict m
    | none => []

/-- Lines 35-59: the orchestrator runs every extractor on the same parsed
document and merges the outputs with dict.update.  The six extractors
write pairwise disjoint keys, so the update chain is exactly
concatenation in call order; the broad except branch returning the empty
dict is unreachable in the pure model. -/
def parse_tables (doc : List HTable) : Dict :=
  extract_apps_data doc ++ extract_remitter_data doc ++
  extract_beneficiary_data doc ++ extract_merchant_data doc ++
  extract_state_data doc ++ extract_p2p_p2m_data doc

/-- Lowercased month abbreviations accepted by strptime directive b in the
C locale (matching is case-insensitive). -/
def monthAbbrevs : List (List Char) :=
  ["jan".toList, "feb".toList, "mar".toList, "apr".toList, "may".toList,
   "jun".toList, "jul".toList, "aug".toList, "sep".toList, "oct".toList,
   "nov".toList, "dec".toList]

/-- Month number 1..12 of a month-abbreviation token, case-insensitive. -/
def monthIndex? (l : List Char) : Option Nat :=
  (monthAbbrevs.findIdx? (fun m => m = l.map Char.toLower)).map (· + 1)

/-- Models datetime.strptime(x, the abbreviated month dash two-digit year
format) at update_data.py line 31, reduced to the month index that orders
the resulting datetimes: a month abbreviation, a dash, then a 1-2 digit
year (0..68 meaning 2000..2068, 69..99 meaning 1969..1999).  Day and time
are constant across parses and ignored.  Any other shape raises
ValueError, modelled as none. -/
def parseMonthYear (s : String) : Option Nat :=
  match splitOnChar '-' s.toList with
  | [mPart, yPart] =>
    match monthIndex? mPart with
    | none => none
    | some mi =>
      if yPart.length = 0 then none
      else if 2 < yPart.length then none
      else if yPart.all Char.isDigit then
        let yy := digitsToNat yPart
        let year := if yy ≤ 68 then 2000 + yy else 1900 + yy
        some (year * 12 + (mi - 1))
      else none
  | _ => none

/-- The chronological sort key of a period label, defaulting to 0; only
used under a guard that every label parses. -/
def pvd (s : String) : Nat := (parseMonthYear s).getD 0

/-- Descending chronological comparison used by sorted with reverse. -/
def histGE (a b : String) : Prop := pvd b ≤ pvd a

instance : DecidableRel histGE := fun a b => Nat.decLe (pvd b) (pvd a)

instance : IsTotal String histGE := ⟨fun a b => Nat.le_total (pvd b) (pvd a)⟩

instance : IsTrans String histGE := ⟨fun _ _ _ h1 h2 => Nat.le_trans h2 h1⟩

/-- Key list of an association-list dict, in insertion order. -/
def keysOf {β : Type} (h : List (String × β)) : List String := h.map Prod.fst

/-- Python dict assignment: overwrite the entry in place when the key
exists, else append the new entry at the end. -/
def dictInsert {β : Type} (h : List (String × β)) (k : String) (v : β) :
    List (String × β) :=
  match h with
  | [] => [(k, v)]
  | p :: rest => if p.1 = k then (k, v) :: rest else p :: dictInsert rest k v

/-- Lines 26-38 of update_data.py: store the snapshot under its period
key, sort all period keys chronologically descending, keep the first 24
and rebuild the store from them.  sorted applies the strptime key function
to every element, so a single unparseable period key raises ValueError;
the surrounding try block makes that fatal for the whole run, modelled as
none.  sorted is stable, but no theorem below concerns chronologically
tied keys, where the modelled insertion sort may order ties differently. -/
def mergeHistory {β : Type} (hist : List (String × β)) (k : String) (v : β) :
    Option (List (String × β)) :=
  let h := dictInsert hist k v
  let ks := keysOf h
  if ks.all (fun m => (parseMonthYear m).isSome) then
    let sortedMonths := List.insertionSort histGE ks
    some ((sortedMonths.take 24).filterMap
      (fun m => (dictGet h m).map (fun val => (m, val))))
  else none

/-- Line 26: current_month is the month entry of the latest snapshot when
present, else the run date rendered in the same period format.  In every
snapshot the scraper produces, the month entry is a string. -/
def currentMonthKey (latest : Dict) (now : String) : String :=
  match dictLookup latest "month" with
  | some (DataValue.str m) => m
  | _ => now

/-- Lines 11-51: the run loads the latest snapshot and the historical
store, merges, and writes the pruned store; some st means the run
succeeds and writes st as the updated historical artifact, none means the
exception path: failure is reported and no updated artifact is written. -/
def process_and_update_dashboard (latest : Dict)
    (hist : List (String × Dict)) (now : String) :
    Option (List (String × Dict)) :=
  mergeHistory hist (currentMonthKey latest now) latest

/-- Fixture for the end-to-end apps claim: one table whose headers include
the apps label, with 12 tr rows: the header row (th cells only, so no td
texts) and 11 data rows of which rows 5 and 11 are malformed (non-numeric
volume cell). -/
def fixtureAppsTable : HTable :=
  { ths := ["Sr. No.", "Application Name", "Volume (Mn)", "Value (Cr)"]
    trs :=
      [[],
       ["1", "App One", "100", "200"],
       ["2", "App Two", "101", "201"],
       ["3", "App Three", "102", "202"],
       ["4", "App Four", "103", "203"],
       ["5", "App Five", "N/A", "204"],
       ["6", "App Six", "105", "205"],
       ["7", "App Seven", "106", "206"],
       ["8", "App Eight", "107", "207"],
       ["9", "App Nine", "108", "208"],
       ["10", "App Ten", "109", "209"],
       ["11", "App Eleven", "bad", "210"]]
    text := "UPI Apps Volume and Value" }

/-- The fixture document containing exactly the apps table. -/
def fixtureAppsDoc : List HTable := [fixtureAppsTable]

/-- The records the apps extractor produces on the fixture: the well-formed
rows among the first 10 data rows, in row order (row 5 is malformed and
dropped, row 11 is beyond the cap). -/
def fixtureAppsExpected : List AppRecord :=
  [⟨"App One", 100, 200⟩, ⟨"App Two", 101, 201⟩, ⟨"App Three", 102, 202⟩,
   ⟨"App Four", 103, 203⟩, ⟨"App Six", 105, 205⟩, ⟨"App Seven", 106, 206⟩,
   ⟨"App Eight", 107, 207⟩, ⟨"App Nine", 108, 208⟩, ⟨"App Ten", 109, 209⟩]

/-- A monthly-totals row with 7 cells whose first numeric cell does not
coerce. -/
def fixtureP2PRow1 : List String := ["Jan-25", "abc", "2", "3", "4", "5", "6"]

/-- A fully well-formed monthly-totals row with 7 cells. -/
def fixtureP2PRow2 : List String := ["Feb-25", "1", "2", "3", "4", "5", "6"]

/-- A P2P and P2M table whose first 7-cell row fails coercion and whose
second row is accepted. -/
def fixtureP2PTable : HTable :=
  { ths := [], trs := [fixtureP2PRow1, fixtureP2PRow2],
    text := "UPI P2P and P2M Transactions (in Mn)" }

/-- The document containing exactly the P2P fixture table. -/
def fixtureP2PDoc : List HTable := [fixtureP2PTable]

/-- A historical store holding 24 distinct parseable period keys,
Jan-24 through Dec-25. -/
def fixtureHist : List (String × Dict) :=
  [("Jan-24", []), ("Feb-24", []), ("Mar-24", []), ("Apr-24", []),
   ("May-24", []), ("Jun-24", []), ("Jul-24", []), ("Aug-24", []),
   ("Sep-24", []), ("Oct-24", []), ("Nov-24", []), ("Dec-24", []),
   ("Jan-25", []), ("Feb-25", []), ("Mar-25", []), ("Apr-25", []),
   ("May-25", []), ("Jun-25", []), ("Jul-25", []), ("Aug-25", []),
   ("Sep-25", []), ("Oct-25", []), ("Nov-25", []), ("Dec-25", [])]

/-- A 16-row apps table: one header tr and 15 identical well-formed data
rows. -/
def fixtureC9Apps : HTable :=
  { ths := ["Application Name"],
    trs := [] :: List.replicate 15 ["1", "A", "2", "3"],
    text := "apps table" }

/-- A merchant table: one td-less header tr and 15 identical well-formed
data rows. -/
def fixtureC9Merch : HTable :=
  { ths := [],
    trs := [] :: List.replicate 15 ["1", "x", "Cat", "7", "9"],
    text := "Merchant Category-wise data" }

lemma locateTable_eq_none (p : HTable → Bool) (doc : List HTable)
    (h : ∀ t ∈ doc, p t = false) : locateTable p doc = none := by
  induction doc with
  | nil => rfl
  | cons t ts ih =>
    simp only [locateTable, h t (List.mem_cons_self t ts), Bool.false_eq_true,
      if_false]
    exact ih fun u hu => h u (List.mem_cons_of_mem t hu)

lemma dictGet_cons_ne {β : Type} (p : String × β) (rest : List (String × β))
    (m : String) (h : p.1 ≠ m) : dictGet (p :: rest) m = dictGet rest m := by
  simp [dictGet, h]

lemma dictGet_cons_eq {β : Type} (p : String × β) (rest : List (String × β)) :
    dictGet (p :: rest) p.1 = some p.2 := by
  simp [dictGet]

lemma findFirst?_append {α β : Type} (f : α → Option β) (l1 l2 : List α) :
    findFirst? f (l1 ++ l2) =
      match findFirst? f l1 with
      | some b => some b
      | none => findFirst? f l2 := by
  induction l1 with
  | nil => rfl
  | cons x xs ih =>
    simp only [List.cons_append, findFirst?]
    cases f x <;> simp [ih]

lemma filterMap_allSome {α β : Type} (f : α → Option β) (l : List α)
    (h : ∀ x ∈ l, (f x).isSome) :
    (l.filterMap f).length = l.length ∧
      ∀ i : Nat, (l.filterMap f)[i]? = (l[i]?).bind f := by
  induction l with
  | nil => exact ⟨rfl, fun i => by simp⟩
  | cons x xs ih =>
    obtain ⟨b, hb⟩ := Option.isSome_iff_exists.mp (h x (List.mem_cons_self x xs))
    obtain ⟨ihl, ihg⟩ := ih fun y hy => h y (List.mem_cons_of_mem x hy)
    refine ⟨?_, ?_⟩
    · simp [List.filterMap_cons, hb, ihl]
    · intro i
      cases i with
      | zero => simp [List.filterMap_cons, hb]
      | succ j => simp [List.filterMap_cons, hb, ihg j]

lemma dictInsert_of_not_mem {β : Type} (h : List (String × β)) (k : String)
    (v : β) (hk : k ∉ keysOf h) : dictInsert h k v = h ++ [(k, v)] := by
  induction h with
  | nil => rfl
  | cons p rest ih =>
    have hne : p.1 ≠ k := fun he => hk (by simp [keysOf, he])
    simp only [dictInsert, hne, if_false, List.cons_append, List.cons.injEq,
      true_and]
    exact ih fun hm => hk (by simp [keysOf] at hm ⊢; exact Or.inr hm)

lemma mem_keysOf_dictGet {β : Type} (h : List (String × β)) (m : String)
    (hm : m ∈ keysOf h) : ∃ v, dictGet h m = some v := by
  induction h with
  | nil => simp [keysOf] at hm
  | cons p rest ih =>
    by_cases he : p.1 = m
    · exact ⟨p.2, by simp [dictGet, he]⟩
    · have : m ∈ keysOf rest := by
        simp [keysOf] at hm ⊢
        rcases hm with hm | hm
        · exact absurd hm.symm he
        · exact hm
      obtain ⟨v, hv⟩ := ih this
      exact ⟨v, by simp [dictGet, he, hv]⟩

lemma dictGet_some_mem {β : Type} (h : List (String × β)) (m : String) (v : β)
    (hv : dictGet h m = some v) : (m, v) ∈ h := by
  induction h with
  | nil => simp [dictGet] at hv
  | cons p rest ih =>
    by_cases he : p.1 = m
    · simp only [dictGet, he, if_pos, Option.some.injEq] at hv
      have hp : p = (m, v) := by
        cases p
        simp_all
      rw [← hp]
      exact List.mem_cons_self p rest
    · simp only [dictGet, he, if_false] at hv
      exact List.mem_cons_of_mem p (ih hv)

lemma mem_keysOf_of_dictInsert {β : Type} (h : List (String × β)) (k m : String)
    (v : β) (hm : m ∈ keysOf h) : m ∈ keysOf (dictInsert h k v) := by
  induction h with
  | nil => simp [keysOf] at hm
  | cons p rest ih =>
    simp only [keysOf, List.map_cons, List.mem_cons] at hm
    by_cases he : p.1 = k
    · simp only [dictInsert, he, if_pos, keysOf, List.map_cons, List.mem_cons]
      rcases hm with hm | hm
      · exact Or.inl (by rw [hm, he])
      · exact Or.inr hm
    · simp only [dictInsert, he, if_false, keysOf, List.map_cons, List.mem_cons]
      rcases hm with hm | hm
      · exact Or.inl hm
      · exact Or.inr (ih hm)

lemma dictGet_dictInsert_self {β : Type} (h : List (String × β)) (k : String)
    (v : β) : dictGet (dictInsert h k v) k = some v := by
  induction h with
  | nil => simp [dictInsert, dictGet]
  | cons p rest ih =>
    by_cases he : p.1 = k
    · simp [dictInsert, he, dictGet]
    · simp [dictInsert, he, dictGet, ih]

lemma dictGet_dictInsert_other {β : Type} (h : List (String × β)) (k m : String)
    (v : β) (hne : m ≠ k) : dictGet (dictInsert h k v) m = dictGet h m := by
  induction h with
  | nil =>
    simp only [dictInsert, dictGet]
    rw [if_neg fun h2 => hne h2.symm]
  | cons p rest ih =>
    by_cases he : p.1 = k
    · have hkm : ¬ (k = m) := fun h2 => hne h2.symm
      have hpm : ¬ (p.1 = m) := by rw [he]; exact hkm
      simp [dictInsert, he, dictGet, hkm, hpm]
    · by_cases hm : p.1 = m
      · simp only [dictInsert, he, if_false]
        simp [dictGet, hm]
      · simp [dictInsert, he, dictGet, hm, ih]

lemma mergeHistory_none_of_bad_key {β : Type} (hist : List (String × β))
    (k b : String) (v : β) (hb : b ∈ keysOf hist)
    (hbad : parseMonthYear b = none) : mergeHistory hist k v = none := by
  have hbin : b ∈ keysOf (dictInsert hist k v) :=
    mem_keysOf_of_dictInsert hist k b v hb
  have hcond : ¬ ((keysOf (dictInsert hist k v)).all
      (fun m => (parseMonthYear m).isSome) = true) := by
    intro hall
    have := List.all_eq_true.mp hall b hbin
    rw [hbad] at this
    exact Bool.false_ne_true this
  simp only [mergeHistory]
  rw [if_neg hcond]

lemma p2pRow?_none_of_short (row : List String) (h : row.length < 6) :
    p2pRow? row = none := by
  simp only [p2pRow?]
  rw [if_neg]
  simp only [List.length_map]
  omega

lemma p2pRow?_none_of_len6 (row : List String) (h : row.length = 6) :
    p2pRow? row = none := by
  simp only [p2pRow?]
  rw [if_pos (by simp [h] : 6 ≤ (row.map pyStrip).length)]
  repeat' split
  all_goals try rfl
  all_goals exfalso
  all_goals rename_i hget6 hx hval hfloat
  all_goals
    have hlt : 6 < (row.map pyStrip).length :=
      (List.getElem?_eq_some_iff.mp hget6).choose
  all_goals simp only [List.length_map] at hlt
  all_goals omega

lemma p2pRow?_some_len (row : List String) (m : MonthlyTotals)
    (h : p2pRow? row = some m) : 7 ≤ row.length := by
  by_contra hlt
  have : row.length < 6 ∨ row.length = 6 := by omega
  rcases this with h6 | h6
  · rw [p2pRow?_none_of_short row h6] at h
    exact Option.noConfusion h
  · rw [p2pRow?_none_of_len6 row h6] at h
    exact Option.noConfusion h

lemma extract_p2p_shape (doc : List HTable) :
    extract_p2p_p2m_data doc = [] ∨
      ∃ m, extract_p2p_p2m_data doc = monthlyDict m := by
  cases hloc : locateTable p2pTablePred doc with
  | none => exact Or.inl (by simp [extract_p2p_p2m_data, hloc])
  | some t =>
    cases hf : findFirst? p2pRow? t.trs with
    | none => exact Or.inl (by simp [extract_p2p_p2m_data, hloc, hf])
    | some m => exact Or.inr ⟨m, by simp [extract_p2p_p2m_data, hloc, hf]⟩

lemma parse_tables_eq (doc : List HTable) :
    parse_tables doc =
      ("topApps", DataValue.apps (topAppsOf doc)) ::
      ("topBanks", DataValue.banks (topBanksOf doc)) ::
      ("merchantCategories", DataValue.merchants (merchantCategoriesOf doc)) ::
      ("stateData", DataValue.states (stateDataOf doc)) ::
      extract_p2p_p2m_data doc := rfl

/-- C8: for tables [A (no match), B (match), C (match)] the locator
returns B, the first match in document order, independently of C; when no
table matches, the locator returns none. -/
theorem claim_C8 (p : HTable → Bool) (A B C : HTable) (doc : List HTable)
    (hA : p A = false) (hB : p B = true) (hC : p C = true)
    (hdoc : ∀ t ∈ doc, p t = false) :
    locateTable p [A, B, C] = some B ∧ locateTable p doc = none := by
  refine ⟨?_, locateTable_eq_none p doc hdoc⟩
  simp [locateTable, hA, hB]

/-- Witness for C8 at the apps predicate: the middle table is the first
whose headers carry the apps label. -/
theorem claim_C8_witness :
    locateTable appsTablePred
      [⟨["Other"], [], "a"⟩, ⟨["Application Name"], [], "b"⟩,
       ⟨["Application Name"], [["x"]], "c"⟩] =
      some ⟨["Application Name"], [], "b"⟩ ∧
    locateTable appsTablePred [⟨["Other"], [], "a"⟩] = none :=
  claim_C8 appsTablePred ⟨["Other"], [], "a"⟩ ⟨["Application Name"], [], "b"⟩
    ⟨["Application Name"], [["x"]], "c"⟩ [⟨["Other"], [], "a"⟩]
    (by decide) (by decide) (by decide) (by decide)

/-- C7: a data row of the apps table whose required volume or value cell
fails numeric coercion yields no record at all, and removing it from the
iterated row sequence leaves the records of every other row unchanged. -/
theorem claim_C7 (pre post : List (List String)) (r : List String)
    (hlen : 3 ≤ r.length)
    (hv : pyFloat (removeCommas ((r.map pyStrip).getD (r.length - 2) "")) = none ∨
          pyFloat (removeCommas ((r.map pyStrip).getD (r.length - 1) "")) = none) :
    appRow? r = none ∧
    (pre ++ r :: post).filterMap appRow? =
      pre.filterMap appRow? ++ post.filterMap appRow? := by
  have hnone : appRow? r = none := by
    simp only [appRow?, List.length_map]
    rw [if_pos hlen]
    rcases hv with hv | hv
    · rw [hv]
    · cases hvol : pyFloat (removeCommas ((r.map pyStrip).getD (r.length - 2) "")) with
      | none => rfl
      | some v => rw [hv]
  refine ⟨hnone, ?_⟩
  rw [List.filterMap_append]
  simp [List.filterMap_cons, hnone]

/-- Witness for C7: the middle row has a non-numeric volume cell; the rows
around it extract exactly as they would without it. -/
theorem claim_C7_witness :
    appRow? ["0", "Bad", "x", "2"] = none ∧
    ([["0", "Good", "1", "2"]] ++
        ["0", "Bad", "x", "2"] :: [["0", "Tail", "3", "4"]]).filterMap appRow? =
      [["0", "Good", "1", "2"]].filterMap appRow? ++
        [["0", "Tail", "3", "4"]].filterMap appRow? :=
  claim_C7 [["0", "Good", "1", "2"]] [["0", "Tail", "3", "4"]]
    ["0", "Bad", "x", "2"] (by decide) (Or.inl (by decide))

/-- C10: when the latest snapshot has no month entry, the merge key
defaults to the run date formatted as a period label, and the insertion
step touches exactly that one key: it maps it to the snapshot and leaves
every other key of the store unchanged. -/
theorem claim_C10 (latest : Dict) (hist : List (String × Dict)) (now : String)
    (h : dictLookup latest "month" = none) :
    currentMonthKey latest now = now ∧
    process_and_update_dashboard latest hist now = mergeHistory hist now latest ∧
    dictGet (dictInsert hist now latest) now = some latest ∧
    ∀ k2, k2 ≠ now → dictGet (dictInsert hist now latest) k2 = dictGet hist k2 := by
  have hk : currentMonthKey latest now = now := by
    simp [currentMonthKey, dictLookup] at h ⊢
    rw [h]
  exact ⟨hk, by simp [process_and_update_dashboard, hk],
    dictGet_dictInsert_self hist now latest,
    fun k2 hne => dictGet_dictInsert_other hist now k2 latest hne⟩

/-- Witness for C10: a month-less snapshot is keyed under the run date. -/
theorem claim_C10_witness :
    currentMonthKey [("totalVolume", DataValue.num 5)] "Jan-25" = "Jan-25" ∧
    process_and_update_dashboard [("totalVolume", DataValue.num 5)]
        [("Dec-24", [])] "Jan-25" =
      mergeHistory [("Dec-24", [])] "Jan-25" [("totalVolume", DataValue.num 5)] ∧
    dictGet (dictInsert [("Dec-24", [])] "Jan-25"
        [("totalVolume", DataValue.num 5)]) "Jan-25" =
      some [("totalVolume", DataValue.num 5)] ∧
    dictGet (dictInsert [("Dec-24", [])] "Jan-25"
        [("totalVolume", DataValue.num 5)]) "Dec-24" =
      dictGet [("Dec-24", [])] "Dec-24" := by
  have h := claim_C10 [("totalVolume", DataValue.num 5)] [("Dec-24", [])]
    "Jan-25" (by decide)
  exact ⟨h.1, h.2.1, h.2.2.1, h.2.2.2 "Dec-24" (by decide)⟩

/-- C5: one period key of the store that fails chronological parsing makes
the whole merge fail, for any new snapshot key: the run takes the
exception path, writes no updated historical artifact and reports
failure. -/
theorem claim_C5 (hist : List (String × Dict)) (latest : Dict) (now b : String)
    (hb : b ∈ keysOf hist) (hbad : parseMonthYear b = none) :
    (∀ (k : String) (v : Dict), mergeHistory hist k v = none) ∧
    process_and_update_dashboard latest hist now = none := by
  refine ⟨fun k v => mergeHistory_none_of_bad_key hist k b v hb hbad, ?_⟩
  simp only [process_and_update_dashboard]
  exact mergeHistory_none_of_bad_key hist _ b latest hb hbad

/-- Witness for C5: a store with the unparseable key NotAMonth makes the
merge and the whole run fail. -/
theorem claim_C5_witness :
    mergeHistory [("NotAMonth", ([] : Dict))] "Jan-26" ([] : Dict) = none ∧
    process_and_update_dashboard [] [("NotAMonth", ([] : Dict))] "Jan-26" = none := by
  have h := claim_C5 [("NotAMonth", ([] : Dict))] [] "Jan-26" "NotAMonth"
    (by decide) (by decide)
  exact ⟨h.1 "Jan-26" [], h.2⟩

lemma dictLookup_parse_tables_tail (doc : List HTable) (key : String)
    (h1 : key ≠ "topApps") (h2 : key ≠ "topBanks")
    (h3 : key ≠ "merchantCategories") (h4 : key ≠ "stateData") :
    dictLookup (parse_tables doc) key =
      dictLookup (extract_p2p_p2m_data doc) key := by
  rw [parse_tables_eq]
  simp only [dictLookup]
  rw [dictGet_cons_ne _ _ _ (by simpa using fun he => h1 he.symm),
      dictGet_cons_ne _ _ _ (by simpa using fun he => h2 he.symm),
      dictGet_cons_ne _ _ _ (by simpa using fun he => h3 he.symm),
      dictGet_cons_ne _ _ _ (by simpa using fun he => h4 he.symm)]

/-- C6: an extractor whose identifying predicate matches no table returns
the empty result for its dataset key without failing, and in the merged
snapshot every dataset key carries exactly the value its own extractor
computes on the document, independent of the other extractors. -/
theorem claim_C6 (doc : List HTable) :
    ((∀ t ∈ doc, appsTablePred t = false) →
      extract_apps_data doc = [("topApps", DataValue.apps [])]) ∧
    ((∀ t ∈ doc, banksTablePred t = false) →
      extract_remitter_data doc = [("topBanks", DataValue.banks [])]) ∧
    ((∀ t ∈ doc, merchantTablePred t = false) →
      extract_merchant_data doc = [("merchantCategories", DataValue.merchants [])]) ∧
    ((∀ t ∈ doc, stateTablePred t = false) →
      extract_state_data doc = [("stateData", DataValue.states [])]) ∧
    ((∀ t ∈ doc, p2pTablePred t = false) → extract_p2p_p2m_data doc = []) ∧
    dictLookup (parse_tables doc) "topApps" =
      dictLookup (extract_apps_data doc) "topApps" ∧
    dictLookup (parse_tables doc) "topBanks" =
      dictLookup (extract_remitter_data doc) "topBanks" ∧
    dictLookup (parse_tables doc) "merchantCategories" =
      dictLookup (extract_merchant_data doc) "merchantCategories" ∧
    dictLookup (parse_tables doc) "stateData" =
      dictLookup (extract_state_data doc) "stateData" ∧
    ∀ key ∈ ["month", "totalVolume", "totalValue", "p2pVolume",
             "p2pValue", "p2mVolume", "p2mValue"],
      dictLookup (parse_tables doc) key =
        dictLookup (extract_p2p_p2m_data doc) key := by
  refine ⟨?_, ?_, ?_, ?_, ?_, ?_, ?_, ?_, ?_, ?_⟩
  · intro h
    simp [extract_apps_data, topAppsOf, locateTable_eq_none _ _ h]
  · intro h
    simp [extract_remitter_data, topBanksOf, locateTable_eq_none _ _ h]
  · intro h
    simp [extract_merchant_data, merchantCategoriesOf, locateTable_eq_none _ _ h]
  · intro h
    simp [extract_state_data, stateDataOf, locateTable_eq_none _ _ h]
  · intro h
    simp [extract_p2p_p2m_data, locateTable_eq_none _ _ h]
  · rw [parse_tables_eq]
    simp [dictLookup, dictGet, extract_apps_data]
  · rw [parse_tables_eq]
    simp [dictLookup, dictGet, extract_remitter_data]
  · rw [parse_tables_eq]
    simp [dictLookup, dictGet, extract_merchant_data]
  · rw [parse_tables_eq]
    simp [dictLookup, dictGet, extract_state_data]
  · intro key hkey
    fin_cases hkey <;>
      exact dictLookup_parse_tables_tail doc _
        (by decide) (by decide) (by decide) (by decide)

/-- Witness for C6 at the empty document: no predicate matches, every
extractor returns its empty result, and the merged snapshot agrees with
each extractor keywise. -/
theorem claim_C6_witness :
    extract_apps_data [] = [("topApps", DataValue.apps [])] ∧
    extract_remitter_data [] = [("topBanks", DataValue.banks [])] ∧
    extract_merchant_data [] = [("merchantCategories", DataValue.merchants [])] ∧
    extract_state_data [] = [("stateData", DataValue.states [])] ∧
    extract_p2p_p2m_data [] = [] ∧
    dictLookup (parse_tables []) "topApps" =
      dictLookup (extract_apps_data []) "topApps" ∧
    dictLookup (parse_tables []) "month" =
      dictLookup (extract_p2p_p2m_data []) "month" := by
  have h := claim_C6 []
  exact ⟨h.1 (by decide), h.2.1 (by decide), h.2.2.1 (by decide),
    h.2.2.2.1 (by decide), h.2.2.2.2.1 (by decide), h.2.2.2.2.2.1,
    h.2.2.2.2.2.2.2.2.2 "month" (by decide)⟩

/-- C1: the merged snapshot of any document carries all four sequence
dataset keys, each holding exactly its own extractor output (empty on
failure); the monthly-totals fields appear as a group exactly when the
monthly extractor succeeds and are absent (the failure value of that
single-record dataset) when it fails; on the empty document every
sequence key is present and empty. -/
theorem claim_C1 (doc : List HTable) :
    dictLookup (parse_tables doc) "topApps" =
      some (DataValue.apps (topAppsOf doc)) ∧
    dictLookup (parse_tables doc) "topBanks" =
      some (DataValue.banks (topBanksOf doc)) ∧
    dictLookup (parse_tables doc) "merchantCategories" =
      some (DataValue.merchants (merchantCategoriesOf doc)) ∧
    dictLookup (parse_tables doc) "stateData" =
      some (DataValue.states (stateDataOf doc)) ∧
    (extract_p2p_p2m_data doc = [] →
      ∀ key ∈ ["month", "totalVolume", "totalValue", "p2pVolume",
               "p2pValue", "p2mVolume", "p2mValue"],
        dictLookup (parse_tables doc) key = none) ∧
    (∀ m, extract_p2p_p2m_data doc = monthlyDict m →
      dictLookup (parse_tables doc) "month" = some (DataValue.str m.month) ∧
      dictLookup (parse_tables doc) "totalVolume" =
        some (DataValue.num m.totalVolume) ∧
      dictLookup (parse_tables doc) "p2mValue" =
        some (DataValue.num m.p2mValue)) ∧
    parse_tables [] =
      [("topApps", DataValue.apps []), ("topBanks", DataValue.banks []),
       ("merchantCategories", DataValue.merchants []),
       ("stateData", DataValue.states [])] := by
  refine ⟨?_, ?_, ?_, ?_, ?_, ?_, rfl⟩
  · rw [parse_tables_eq]
    simp [dictLookup, dictGet]
  · rw [parse_tables_eq]
    simp [dictLookup, dictGet]
  · rw [parse_tables_eq]
    simp [dictLookup, dictGet]
  · rw [parse_tables_eq]
    simp [dictLookup, dictGet]
  · intro hp key hkey
    fin_cases hkey <;>
      rw [dictLookup_parse_tables_tail doc _
            (by decide) (by decide) (by decide) (by decide), hp] <;>
      rfl
  · intro m hm
    refine ⟨?_, ?_, ?_⟩
    · rw [dictLookup_parse_tables_tail doc "month"
            (by decide) (by decide) (by decide) (by decide), hm]
      simp [dictLookup, dictGet, monthlyDict]
    · rw [dictLookup_parse_tables_tail doc "totalVolume"
            (by decide) (by decide) (by decide) (by decide), hm]
      simp [dictLookup, dictGet, monthlyDict]
    · rw [dictLookup_parse_tables_tail doc "p2mValue"
            (by decide) (by decide) (by decide) (by decide), hm]
      simp [dictLookup, dictGet, monthlyDict]

/-- Witness for C1 at the empty document: all four sequence keys present
and empty, monthly fields absent. -/
theorem claim_C1_witness :
    dictLookup (parse_tables []) "topApps" = some (DataValue.apps []) ∧
    dictLookup (parse_tables []) "topBanks" = some (DataValue.banks []) ∧
    dictLookup (parse_tables []) "merchantCategories" =
      some (DataValue.merchants []) ∧
    dictLookup (parse_tables []) "stateData" = some (DataValue.states []) ∧
    dictLookup (parse_tables []) "month" = none := by
  have h := claim_C1 []
  exact ⟨h.1, h.2.1, h.2.2.1, h.2.2.2.1,
    h.2.2.2.2.1 (by decide) "month" (by decide)⟩

/-- C3 (amended): the monthly extractor accepts a row structurally at 6
cells but reads cell index 6, so a 6-cell row passes the guard, the
seventh-cell read fails (the caught IndexError) and the row yields
nothing; skipping such a row is exactly continuing with the remaining
rows; any returned record comes from the first row that has at least 7
cells and all of whose numeric cells coerce; and the extractor output is
a single record (or nothing), never a sequence. -/
theorem claim_C3 :
    (∀ row : List String, row.length = 6 →
      6 ≤ (row.map pyStrip).length ∧ (row.map pyStrip)[6]? = none ∧
        p2pRow? row = none) ∧
    (∀ (pre post : List (List String)) (r : List String), p2pRow? r = none →
      findFirst? p2pRow? (pre ++ r :: post) = findFirst? p2pRow? (pre ++ post)) ∧
    (∀ (rows : List (List String)) (m : MonthlyTotals),
      findFirst? p2pRow? rows = some m →
      ∃ pre r post, rows = pre ++ r :: post ∧
        (∀ r2 ∈ pre, p2pRow? r2 = none) ∧ p2pRow? r = some m ∧ 7 ≤ r.length) ∧
    (∀ doc : List HTable, extract_p2p_p2m_data doc = [] ∨
      ∃ m, extract_p2p_p2m_data doc = monthlyDict m) := by
  refine ⟨?_, ?_, ?_, extract_p2p_shape⟩
  · intro row h
    exact ⟨by simp [h], List.getElem?_eq_none (by simp [h]),
      p2pRow?_none_of_len6 row h⟩
  · intro pre post r h
    have hr : findFirst? p2pRow? (r :: post) = findFirst? p2pRow? post := by
      simp [findFirst?, h]
    rw [findFirst?_append, findFirst?_append, hr]
  · intro rows
    induction rows with
    | nil => intro m h; simp [findFirst?] at h
    | cons x xs ih =>
      intro m h
      cases hx : p2pRow? x with
      | some b =>
        have hbm : b = m := by
          simp only [findFirst?, hx] at h
          exact Option.some.inj h
        refine ⟨[], x, xs, rfl, by simp, ?_, ?_⟩
        · rw [hx, hbm]
        · exact p2pRow?_some_len x m (by rw [hx, hbm])
      | none =>
        have h2 : findFirst? p2pRow? xs = some m := by
          simpa only [findFirst?, hx] using h
        obtain ⟨pre, r, post, hsplit, hpre, hr, hlen⟩ := ih m h2
        refine ⟨x :: pre, r, post, by rw [hsplit]; rfl, ?_, hr, hlen⟩
        intro r2 hr2
        rcases List.mem_cons.mp hr2 with he | hm2
        · rw [he]; exact hx
        · exact hpre r2 hm2

/-- Counterexample for C3 as stated: in the fixture table the first row
with at least 7 cells is row 1, whose volume cell does not coerce; the
returned record is built from row 2, so a record is not in general built
from the first row having at least 7 cells. -/
theorem claim_C3_counterexample :
    fixtureP2PTable.trs = [fixtureP2PRow1, fixtureP2PRow2] ∧
    p2pTablePred fixtureP2PTable = true ∧
    7 ≤ fixtureP2PRow1.length ∧
    p2pRow? fixtureP2PRow1 = none ∧
    extract_p2p_p2m_data fixtureP2PDoc =
      monthlyDict ⟨"Feb-25", 1, 2, 3, 4, 5, 6⟩ ∧
    pyStrip (fixtureP2PRow1.getD 0 "") = "Jan-25" ∧
    ("Feb-25" : String) ≠ "Jan-25" := by decide

/-- C9: on a located table whose 15 data rows after the header all
extract, the top-10 extractors return exactly 10 records, and the i-th
record is extracted from the i-th data row (original order); shown for
the apps extractor (cap before filtering) and the merchant extractor
(cap after filtering). -/
theorem claim_C9 (t u : HTable) (hdr : List String)
    (data hdrs datam : List (List String))
    (ht : t.trs = hdr :: data) (hlen : data.length = 15)
    (hvalid : ∀ r ∈ data, (appRow? r).isSome)
    (hu : u.trs = hdrs ++ datam) (hhdrs : ∀ r ∈ hdrs, merchRow? r = none)
    (hlenm : datam.length = 15)
    (hvalidm : ∀ r ∈ datam, (merchRow? r).isSome) :
    (appsRecords t).length = 10 ∧
    (∀ i, i < 10 → (appsRecords t)[i]? = (data[i]?).bind appRow?) ∧
    (merchantRecords u).length = 10 ∧
    (∀ i, i < 10 → (merchantRecords u)[i]? = (datam[i]?).bind merchRow?) := by
  have happs : appsRecords t = (data.take 10).filterMap appRow? := by
    simp [appsRecords, ht]
  have hvalid10 : ∀ r ∈ data.take 10, (appRow? r).isSome :=
    fun r hr => hvalid r (List.take_subset 10 data hr)
  obtain ⟨hl, hg⟩ := filterMap_allSome appRow? (data.take 10) hvalid10
  have hmerch : merchantRecords u =
      (datam.filterMap merchRow?).take 10 := by
    have hn : hdrs.filterMap merchRow? = [] := by
      rw [List.filterMap_eq_nil]
      exact hhdrs
    simp [merchantRecords, hu, List.filterMap_append, hn]
  obtain ⟨hlm, hgm⟩ := filterMap_allSome merchRow? datam hvalidm
  refine ⟨?_, ?_, ?_, ?_⟩
  · rw [happs, hl]
    simp [List.length_take, hlen]
  · intro i hi
    rw [happs, hg i, List.getElem?_take_of_lt hi]
  · rw [hmerch]
    simp [List.length_take, hlm, hlenm]
  · intro i hi
    rw [hmerch, List.getElem?_take_of_lt (by omega : i < 10), hgm i]

/-- Witness for C9: concrete 15-valid-row apps and merchant tables give
10 records each, extracted rowwise in order. -/
theorem claim_C9_witness :
    (appsRecords fixtureC9Apps).length = 10 ∧
    (appsRecords fixtureC9Apps)[0]? =
      ((List.replicate 15 ["1", "A", "2", "3"] : List (List String))[0]?).bind
        appRow? ∧
    (merchantRecords fixtureC9Merch).length = 10 ∧
    (merchantRecords fixtureC9Merch)[0]? =
      ((List.replicate 15 ["1", "x", "Cat", "7", "9"] :
          List (List String))[0]?).bind merchRow? := by
  have h := claim_C9 fixtureC9Apps fixtureC9Merch []
    (List.replicate 15 ["1", "A", "2", "3"]) [[]]
    (List.replicate 15 ["1", "x", "Cat", "7", "9"])
    rfl (by decide) (by decide) rfl (by decide) (by decide) (by decide)
  exact ⟨h.1, h.2.1 0 (by decide), h.2.2.1, h.2.2.2 0 (by decide)⟩

/-- Counterexample for C2 as stated: the fixture document satisfies every
hypothesis of the claim (one table with the apps header label, 12 tr
rows, 11 data rows of which exactly 2 are malformed), yet the extractor
returns 9 records, not 10: the cap of 10 is applied to raw data rows
before well-formedness filtering, and only 9 of the first 10 data rows
are well-formed. -/
theorem claim_C2_counterexample :
    fixtureAppsDoc = [fixtureAppsTable] ∧
    appsTablePred fixtureAppsTable = true ∧
    fixtureAppsTable.trs.length = 12 ∧
    (fixtureAppsTable.trs.drop 1).length = 11 ∧
    ((fixtureAppsTable.trs.drop 1).filter
      (fun r => (appRow? r).isNone)).length = 2 ∧
    extract_apps_data fixtureAppsDoc =
      [("topApps", DataValue.apps fixtureAppsExpected)] ∧
    fixtureAppsExpected.length = 9 ∧
    ¬ (fixtureAppsExpected.length = 10) := by decide

/-- C2 (amended): on the fixture document the apps extractor returns
exactly the well-formed records among the first 10 data rows, in original
row order - here 9 records, because one of the two malformed rows falls
inside the 10-row cap (it would be 8 if both did); the configured limit
of 10 caps the iterated raw rows, not the returned records. -/
theorem claim_C2_amended :
    extract_apps_data fixtureAppsDoc =
      [("topApps", DataValue.apps fixtureAppsExpected)] ∧
    fixtureAppsExpected =
      ((fixtureAppsTable.trs.drop 1).take 10).filterMap appRow? ∧
    fixtureAppsExpected =
      [⟨"App One", 100, 200⟩, ⟨"App Two", 101, 201⟩, ⟨"App Three", 102, 202⟩,
       ⟨"App Four", 103, 203⟩, ⟨"App Six", 105, 205⟩, ⟨"App Seven", 106, 206⟩,
       ⟨"App Eight", 107, 207⟩, ⟨"App Nine", 108, 208⟩,
       ⟨"App Ten", 109, 209⟩] ∧
    fixtureAppsExpected.length = 9 := by decide

lemma keysOf_filterMap_dictGet {β : Type} (h : List (String × β))
    (l : List String) (hl : ∀ m ∈ l, m ∈ keysOf h) :
    keysOf (l.filterMap
      (fun m => (dictGet h m).map (fun val => (m, val)))) = l := by
  induction l with
  | nil => rfl
  | cons m ms ih =>
    obtain ⟨val, hval⟩ := mem_keysOf_dictGet h m (hl m (List.mem_cons_self m ms))
    rw [List.filterMap_cons]
    rw [hval]
    simp only [Option.map_some', keysOf, List.map_cons]
    rw [show (ms.filterMap
        (fun m => (dictGet h m).map (fun val => (m, val)))).map Prod.fst =
        keysOf (ms.filterMap
          (fun m => (dictGet h m).map (fun val => (m, val)))) from rfl]
    rw [ih fun m2 hm2 => hl m2 (List.mem_cons_of_mem m hm2)]

/-- C4: merging a 25th period whose key is distinct and chronologically
distinct from the 24 parseable keys of the store succeeds and yields a
store of exactly 24 entries; a period survives exactly when some period
among the 25 is chronologically older, so precisely the oldest is
dropped; every surviving entry is either the newly inserted one or an
untouched entry of the old store, and the new entry survives whenever it
is not itself the oldest. -/
theorem claim_C4 {β : Type} (hist : List (String × β)) (k : String) (v : β)
    (hlen : hist.length = 24)
    (hparse : ∀ m ∈ keysOf hist ++ [k], (parseMonthYear m).isSome = true)
    (hinj : (keysOf hist ++ [k]).Pairwise (fun a b => pvd a ≠ pvd b)) :
    (mergeHistory hist k v).isSome = true ∧
    ((mergeHistory hist k v).getD []).length = 24 ∧
    (∀ m, m ∈ keysOf ((mergeHistory hist k v).getD []) ↔
      (m ∈ keysOf hist ++ [k] ∧
        ∃ m2 ∈ keysOf hist ++ [k], pvd m2 < pvd m)) ∧
    (∀ p ∈ (mergeHistory hist k v).getD [], p = (k, v) ∨ p ∈ hist) ∧
    ((∃ m2 ∈ keysOf hist ++ [k], pvd m2 < pvd k) →
      (k, v) ∈ (mergeHistory hist k v).getD []) := by
  have hknotin : k ∉ keysOf hist := by
    intro hk
    exact (List.pairwise_append.mp hinj).2.2 k hk k (List.mem_singleton.mpr rfl)
      rfl
  have hins : dictInsert hist k v = hist ++ [(k, v)] :=
    dictInsert_of_not_mem hist k v hknotin
  have hkeysIns : keysOf (dictInsert hist k v) = keysOf hist ++ [k] := by
    rw [hins]
    simp [keysOf]
  have hall : ((keysOf (dictInsert hist k v)).all
      (fun m => (parseMonthYear m).isSome)) = true := by
    rw [hkeysIns, List.all_eq_true]
    exact hparse
  have hlen25 : (keysOf hist ++ [k]).length = 25 := by
    simp [keysOf, hlen]
  have hperm : List.Perm (List.insertionSort histGE (keysOf hist ++ [k]))
      (keysOf hist ++ [k]) := List.perm_insertionSort histGE _
  set S := List.insertionSort histGE (keysOf hist ++ [k]) with hSdef
  have hSlen : S.length = 25 := by rw [hperm.length_eq, hlen25]
  have hsorted : List.Sorted histGE S := List.sorted_insertionSort histGE _
  have hnodup25 : (keysOf hist ++ [k]).Nodup :=
    hinj.imp fun hab heq => absurd (by rw [heq]) hab
  have hSnodup : S.Nodup := (hperm.nodup_iff).mpr hnodup25
  have hTD : S.take 24 ++ S.drop 24 = S := List.take_append_drop 24 S
  have hDlen : (S.drop 24).length = 1 := by rw [List.length_drop, hSlen]
  obtain ⟨d, hD⟩ := List.length_eq_one.mp hDlen
  have hS2 : S = S.take 24 ++ [d] := by
    conv_lhs => rw [← hTD]
    rw [hD]
  have hTlen : (S.take 24).length = 24 := by simp [List.length_take, hSlen]
  have hmin : ∀ x ∈ S, pvd d ≤ pvd x := by
    intro x hx
    have hsorted2 : List.Sorted histGE (S.take 24 ++ [d]) := hS2 ▸ hsorted
    rw [hS2] at hx
    rcases List.mem_append.mp hx with hxT | hxd
    · exact (List.pairwise_append.mp hsorted2).2.2 x hxT d
        (List.mem_singleton.mpr rfl)
    · rw [List.mem_singleton.mp hxd]
  have hdS : d ∈ S := by
    rw [hS2]
    exact List.mem_append_right _ (List.mem_singleton.mpr rfl)
  have hdk : d ∈ keysOf hist ++ [k] := hperm.mem_iff.mp hdS
  have hne2 : ∀ a ∈ keysOf hist ++ [k], ∀ b ∈ keysOf hist ++ [k],
      a ≠ b → pvd a ≠ pvd b :=
    List.Pairwise.forall (fun _ _ hab => hab.symm) hinj
  have hdisj : ∀ x ∈ S.take 24, x ≠ d := by
    intro x hxT heq
    have hnd : (S.take 24 ++ [d]).Nodup := hS2 ▸ hSnodup
    exact (List.nodup_append.mp hnd).2.2 (heq ▸ hxT) (List.mem_singleton.mpr rfl)
  have hmemT : ∀ m, m ∈ S.take 24 ↔
      (m ∈ keysOf hist ++ [k] ∧
        ∃ m2 ∈ keysOf hist ++ [k], pvd m2 < pvd m) := by
    intro m
    constructor
    · intro hmT
      have hmS : m ∈ S := by
        rw [hS2]
        exact List.mem_append_left _ hmT
      have hmk : m ∈ keysOf hist ++ [k] := hperm.mem_iff.mp hmS
      have hmd : m ≠ d := hdisj m hmT
      exact ⟨hmk, d, hdk,
        lt_of_le_of_ne (hmin m hmS) (hne2 d hdk m hmk fun he => hmd he.symm)⟩
    · rintro ⟨hmk, m2, hm2k, hlt⟩
      have hmS : m ∈ S := hperm.mem_iff.mpr hmk
      rw [hS2] at hmS
      rcases List.mem_append.mp hmS with hT | hd1
      · exact hT
      · exfalso
        have hm2S : m2 ∈ S := hperm.mem_iff.mpr hm2k
        have := hmin m2 hm2S
        rw [List.mem_singleton.mp hd1] at hlt
        omega
  have hsub : ∀ m ∈ S.take 24, m ∈ keysOf (dictInsert hist k v) := by
    intro m hm
    rw [hkeysIns]
    exact hperm.mem_iff.mp (by rw [hS2]; exact List.mem_append_left _ hm)
  have hkeysSt := keysOf_filterMap_dictGet (dictInsert hist k v) (S.take 24) hsub
  have hmerge : mergeHistory hist k v =
      some ((S.take 24).filterMap
        (fun m => (dictGet (dictInsert hist k v) m).map (fun val => (m, val)))) := by
    simp only [mergeHistory]
    rw [if_pos hall, hkeysIns]
  set st := (S.take 24).filterMap
    (fun m => (dictGet (dictInsert hist k v) m).map (fun val => (m, val)))
    with hstdef
  have hgetD : (mergeHistory hist k v).getD [] = st := by rw [hmerge]; rfl
  have hstlen : st.length = 24 := by
    calc st.length = (keysOf st).length := (List.length_map st Prod.fst).symm
      _ = (S.take 24).length := by rw [hkeysSt]
      _ = 24 := hTlen
  have hvals : ∀ p ∈ st, p = (k, v) ∨ p ∈ hist := by
    intro p hp
    rw [hstdef] at hp
    obtain ⟨m, hmT, hpm⟩ := List.mem_filterMap.mp hp
    cases hdg : dictGet (dictInsert hist k v) m with
    | none => rw [hdg] at hpm; cases hpm
    | some val =>
      rw [hdg] at hpm
      simp only [Option.map_some', Option.some.injEq] at hpm
      have hmem : (m, val) ∈ dictInsert hist k v := dictGet_some_mem _ _ _ hdg
      rw [hins] at hmem
      rcases List.mem_append.mp hmem with hmh | hmk2
      · exact Or.inr (by rw [← hpm]; exact hmh)
      · exact Or.inl (by rw [← hpm]; exact List.mem_singleton.mp hmk2)
  refine ⟨by rw [hmerge]; rfl, by rw [hgetD]; exact hstlen, ?_,
    by rw [hgetD]; exact hvals, ?_⟩
  · intro m
    rw [hgetD, hkeysSt]
    exact hmemT m
  · intro hex
    have hkmem : k ∈ keysOf hist ++ [k] :=
      List.mem_append_right _ (List.mem_singleton.mpr rfl)
    have hkT : k ∈ S.take 24 := (hmemT k).mpr ⟨hkmem, hex⟩
    rw [hgetD]
    have hkst : k ∈ keysOf st := by rw [hkeysSt]; exact hkT
    obtain ⟨p, hp, hpk⟩ := List.mem_map.mp hkst
    rcases hvals p hp with hpe | hph
    · rw [← hpe]
      exact hp
    · exact absurd (by rw [← hpk]; exact List.mem_map_of_mem Prod.fst hph)
        hknotin

/-- Witness for C4: merging key Jan-26 into the 24-month store Jan-24
through Dec-25 keeps 24 entries, the new key survives and the oldest key
Jan-24 is dropped. -/
theorem claim_C4_witness :
    (mergeHistory fixtureHist "Jan-26" ([] : Dict)).isSome = true ∧
    ((mergeHistory fixtureHist "Jan-26" ([] : Dict)).getD []).length = 24 ∧
    "Jan-26" ∈ keysOf ((mergeHistory fixtureHist "Jan-26" ([] : Dict)).getD []) ∧
    "Jan-24" ∉ keysOf ((mergeHistory fixtureHist "Jan-26" ([] : Dict)).getD []) := by
  have h := claim_C4 fixtureHist "Jan-26" ([] : Dict) (by decide) (by decide)
    (by decide)
  refine ⟨h.1, h.2.1, (h.2.2.1 "Jan-26").mpr (by decide), fun hmem => ?_⟩
  exact absurd ((h.2.2.1 "Jan-24").mp hmem) (by decide)
